import Mathlib

/-!
# Verification of `tools/mcp_installer.py`

Shallow embedding of the MCP-installer tool: a JSON value model for
manifests and the persisted registry, Python-dict operations with their
exception behaviour made explicit (`Except Unit`), the compliance
checker with its bounded retry loop, the two installer entry points as
explicit state transformers over an instrumented installer state, the
smithery manifest emitter, and the CLI env-token parsing.

Python exceptions are modelled by `Except Unit`: `.error ()` stands for
any raised exception (the code only ever distinguishes "some exception
was raised", never which one).
-/

namespace McpInstaller

/-- JSON values as produced by Python's `json.loads`: object keys are
strings, numbers are modelled as integers (no claim depends on float
values), objects keep insertion order like Python dicts. -/
inductive Json where
  | null : Json
  | bool : Bool → Json
  | num : Int → Json
  | str : String → Json
  | arr : List Json → Json
  | obj : List (String × Json) → Json
  deriving Repr, BEq

/-- First-match lookup in an insertion-ordered association list
(Python dict lookup; keys in a dict are unique, so first match is the
binding). -/
def alookup {β : Type} (k : String) : List (String × β) → Option β
  | [] => none
  | (k', v) :: rest => if k' = k then some v else alookup k rest

/-- Python dict assignment `d[k] = v`: updates the existing binding in
place (keeping its position) or appends a new one. -/
def aset {β : Type} (k : String) (v : β) : List (String × β) → List (String × β)
  | [] => [(k, v)]
  | (k', v') :: rest => if k' = k then (k, v) :: rest else (k', v') :: aset k v rest

-- Python `str` on a `json.loads` result (the `repr` of a dict/list/str
-- tree). Strings are rendered single-quoted; escaping of quote characters
-- inside strings is not modelled (the only use is a substring test for
-- "modelcontextprotocol", which contains no quote or escape character).
mutual
def pyRepr : Json → String
  | .null => "None"
  | .bool true => "True"
  | .bool false => "False"
  | .num n => toString n
  | .str s => "'" ++ s ++ "'"
  | .arr xs => "[" ++ pyReprList xs ++ "]"
  | .obj kvs => "\x7b" ++ pyReprObj kvs ++ "\x7d"

def pyReprList : List Json → String
  | [] => ""
  | [x] => pyRepr x
  | x :: rest => pyRepr x ++ ", " ++ pyReprList rest

def pyReprObj : List (String × Json) → String
  | [] => ""
  | [(k, v)] => "'" ++ k ++ "': " ++ pyRepr v
  | (k, v) :: rest => "'" ++ k ++ "': " ++ pyRepr v ++ ", " ++ pyReprObj rest
end

/-- `needle` occurs as a contiguous run in `hay`. -/
def listInfix (needle : List Char) : List Char → Bool
  | [] => needle.isEmpty
  | c :: rest => needle.isPrefixOf (c :: rest) || listInfix needle rest

/-- Substring test, Python's `needle in haystack` on strings. -/
def strContains (hay needle : String) : Bool :=
  listInfix needle.toList hay.toList

/-- Python's `s.startswith(pre)`. -/
def strStartsWith (s pre : String) : Bool :=
  pre.toList.isPrefixOf s.toList

/-- Python `d.get(k, default)`: only dicts have `.get`; on any other
value an `AttributeError` is raised. -/
def pyGetD (j : Json) (k : String) (d : Json) : Except Unit Json :=
  match j with
  | .obj kvs => .ok ((alookup k kvs).getD d)
  | _ => .error ()

/-- Python `d.keys()`: only dicts have `.keys()`. -/
def pyKeys : Json → Except Unit (List String)
  | .obj kvs => .ok (kvs.map Prod.fst)
  | _ => .error ()

/-- Python `needle in container` for a string needle: key membership in
a dict, element equality in a list, substring in a string, `TypeError`
on non-iterable scalars. -/
def pyIn (needle : String) : Json → Except Unit Bool
  | .obj kvs => .ok (kvs.any fun kv => kv.1 = needle)
  | .arr xs => .ok (xs.any fun x => x == .str needle)
  | .str s => .ok (strContains s needle)
  | _ => .error ()

/-- The compliance predicate body of `is_mcp_compliant`
(mcp_installer.py lines 113-127), applied to an already-resolved
manifest. `.error ()` is an exception escaping to the retry loop. -/
def mcpCheck (package_info : Json) : Except Unit Bool := do
  let deps ← pyGetD package_info "dependencies" (.obj [])
  let depKeys ← pyKeys deps
  let has_mcp_deps := depKeys.any (strStartsWith · "@modelcontextprotocol/")
  let has_mcp_schema := strContains (pyRepr package_info) "modelcontextprotocol"
  let capsIn ← pyIn "capabilities" package_info
  let has_mcp_fields ←
    if capsIn then do
      let caps ← pyGetD package_info "capabilities" (.obj [])
      pyIn "tools" caps
    else
      pure false
  pure (has_mcp_deps || has_mcp_schema || has_mcp_fields)

/-! ## The retry loop of `is_mcp_compliant` (lines 97-143)

One attempt resolves a manifest and runs `mcpCheck` on it; `att i` is
the outcome of absolute attempt number `i` (the resolver may answer
differently on different attempts, e.g. a transient `npm view`
failure). The loop is instrumented: it records how many attempts it
consumed and how many `time.sleep(1)` calls it made. -/

/-- Instrumented outcome of one run of the retry loop: the Python
return value (`none` = the function falls off the loop and returns
`None`), the number of attempts consumed, and the number of 1-second
sleeps performed. -/
structure CRun where
  result : Option Bool
  used : Nat
  sleeps : Nat
  deriving Repr, BEq

/-- The body of `for attempt in range(max_retries)` with `remaining`
iterations left, next attempt having absolute index `idx`. On a raised
exception the loop sleeps 1 second and retries while
`attempt < max_retries - 1` (i.e. while `remaining > 1`), else returns
`False`. -/
def complianceGo (att : Nat → Except Unit Bool) (idx : Nat) : Nat → CRun
  | 0 => ⟨none, 0, 0⟩
  | r + 1 =>
    match att idx with
    | .ok b => ⟨some b, 1, 0⟩
    | .error _ =>
      if r = 0 then ⟨some false, 1, 0⟩
      else
        let out := complianceGo att (idx + 1) r
        ⟨out.result, out.used + 1, out.sleeps + 1⟩

/-- `is_mcp_compliant` (lines 88-143) as a function of the per-attempt
resolution+check outcome. Python's default for `max_retries` is 3. -/
def is_mcp_compliant (att : Nat → Except Unit Bool) (max_retries : Nat) : CRun :=
  complianceGo att 0 max_retries

/-- Per-attempt outcome for a registry package: `npm view` (resolution,
may raise) followed by the compliance predicate (may raise on odd
manifest shapes); both kinds of exception reach the retry loop. -/
def npmAtt (npmView : Nat → Except Unit Json) (i : Nat) : Except Unit Bool :=
  (npmView i).bind mcpCheck

/-- Per-attempt outcome for a local package: `check_package_json`
(which already swallows missing-file and JSON-decode errors into `{}`,
but lets other I/O errors escape — its result is the `Except` given
here) followed by the compliance predicate. -/
def localAtt (manifest : Except Unit Json) (_i : Nat) : Except Unit Bool :=
  manifest.bind mcpCheck

/-! ## CLI env-token parsing (`main`, lines 586-594) -/

/-- Split a token at its first `=`: Python's
`env_var.split("=", 1)` preceded by the `"=" in env_var` test;
`none` means the token contains no `=`. -/
def splitAtEq : List Char → Option (List Char × List Char)
  | [] => none
  | c :: rest =>
    if c = '=' then some ([], rest)
    else (splitAtEq rest).map fun kv => (c :: kv.1, kv.2)

/-- A `KEY=VALUE` token parsed, or `none` when malformed. -/
def parseEnvTok (tok : String) : Option (String × String) :=
  (splitAtEq tok.toList).map fun kv => (String.mk kv.1, String.mk kv.2)

/-- One token processed against the accumulated `env_dict` and warning
count: a well-formed token is assigned into the dict, a malformed one
is dropped with a warning. -/
def envStep (acc : List (String × String) × Nat) (tok : String) :
    List (String × String) × Nat :=
  match parseEnvTok tok with
  | some kv => (aset kv.1 kv.2 acc.1, acc.2)
  | none => (acc.1, acc.2 + 1)

/-- `env_dict` construction from the `--env` tokens: left-to-right,
dict assignment (last write wins), malformed tokens dropped; the second
component counts the `logger.warning` calls for dropped tokens. -/
def build_env_dict (tokens : List String) : List (String × String) × Nat :=
  tokens.foldl envStep ([], 0)

/-! ## `generate_smithery_yaml` (lines 145-214)

The emitted `smithery.yaml` is modelled by the data that determines it:
the embedded command and args of `commandFunction`, the property names
of `configSchema.properties` (one per env key, in order) and the
optional `required` list. The only failure point of the function is
the file write (everything before it is pure construction), modelled
by the `writeOk` flag of the ambient system. -/

/-- The content of the emitted `smithery.yaml`. -/
structure SmitheryConf where
  command : String
  args : List String
  envProps : List String
  required : Option (List String)
  deriving Repr, BEq

/-- `generate_smithery_yaml`: returns the Python boolean result and the
artifact written (`none` when the write failed, leaving no new
artifact). `args or []` and the `if env:` truthiness (None and the
empty dict are both falsy) are as in the source. -/
def generate_smithery_yaml (writeOk : Bool) (_package_name : String) (command : String)
    (args : Option (List String)) (env : Option (List (String × String))) :
    Bool × Option SmitheryConf :=
  let envTruthy := match env with
    | some e => !e.isEmpty
    | none => false
  let conf : SmitheryConf :=
    { command := command
      args := args.getD []
      envProps := if envTruthy then (env.getD []).map Prod.fst else []
      required := if envTruthy then some ((env.getD []).map Prod.fst) else none }
  if writeOk then (true, some conf) else (false, none)

/-! ## Config store and installer state

The ambient system (`Sys`) fixes what the external world answers:
tool probes, `npm view` per compliance attempt, the local package
manifest, path existence, and whether the `smithery.yaml` write
succeeds. The mutable installer state (`St`) holds the config file
(absent / present-but-malformed / parsed document), the last written
smithery artifact, and instrumentation counters. -/

/-- `check_environment` result (lines 45-74). -/
structure EnvStatus where
  node : Bool
  npm : Bool
  uvx : Bool
  deriving Repr, BEq

/-- The external world, fixed for a run. -/
structure Sys where
  node : Bool
  npm : Bool
  uvx : Bool
  npmView : Nat → Except Unit Json
  localManifest : Except Unit Json
  pathExists : Bool
  smitheryWriteOk : Bool

/-- Mutable state threaded through an install: the config file at the
fixed per-user path (`none` = absent, `some (.error ())` = present but
not valid JSON, `some (.ok doc)` = parsed document), the smithery
artifact, and counters for `load_config` / `save_config` /
`check_environment` calls. -/
structure St where
  config : Option (Except Unit Json)
  smithery : Option SmitheryConf
  loads : Nat
  saves : Nat
  envChecks : Nat

/-- `load_config` (lines 29-37): absent file yields the empty registry
document (after creating parent directories, untracked here) without
writing; a present file is parsed, raising on malformed JSON. -/
def load_config (st : St) : Except Unit Json × St :=
  match st.config with
  | none => (.ok (.obj [("mcpServers", .obj [])]), { st with loads := st.loads + 1 })
  | some r => (r, { st with loads := st.loads + 1 })

/-- `save_config` (lines 39-43): overwrite the file with the document. -/
def save_config (doc : Json) (st : St) : St :=
  { st with config := some (.ok doc), saves := st.saves + 1 }

/-- `check_environment` probes the three tools (never raises). -/
def check_environment (w : Sys) (st : St) : EnvStatus × St :=
  (⟨w.node, w.npm, w.uvx⟩, { st with envChecks := st.envChecks + 1 })

/-- The server entry dict built by the installers: `env` key added only
when the optional env dict is truthy (present and nonempty). -/
def mkServerConfig (command : String) (args : List String)
    (env : Option (List (String × String))) : Json :=
  let base := [("command", Json.str command),
               ("args", Json.arr (args.map Json.str)),
               ("type", Json.str "stdio")]
  match env with
  | some e => if e.isEmpty then .obj base
              else .obj (base ++ [("env", Json.obj (e.map fun kv => (kv.1, Json.str kv.2)))])
  | none => .obj base

/-- `config["mcpServers"][name] = server_config`: raises (`KeyError` /
`TypeError`) unless the document is a dict whose `mcpServers` value is
a dict. -/
def setServer (doc : Json) (name : String) (sc : Json) : Except Unit Json :=
  match doc with
  | .obj kvs =>
    match alookup "mcpServers" kvs with
    | some (.obj servers) => .ok (.obj (aset "mcpServers" (.obj (aset name sc servers)) kvs))
    | some _ => .error ()
    | none => .error ()
  | _ => .error ()

/-- Apply `generate_smithery_yaml` for its side effect on the artifact;
the installers ignore its boolean result. -/
def emitSmithery (w : Sys) (name command : String) (args : List String)
    (env : Option (List (String × String))) (st : St) : St :=
  match (generate_smithery_yaml w.smitheryWriteOk name command (some args) env).2 with
  | some conf => { st with smithery := some conf }
  | none => st

/-! ## `install_mcp_server` (lines 275-336)

The whole body sits inside `for attempt in range(max_retries): try/
except`: a `return` inside the body ends the loop; a raised exception
sleeps 1 second and retries while `attempt < max_retries - 1`, and on
the last attempt returns `False`. Falling off the loop (only possible
when `max_retries == 0`) returns `None`.

Note the inner compliance check is called as `is_mcp_compliant(name)`,
i.e. with its own default `max_retries=3`, independent of the outer
loop's `max_retries`. `cbase` numbers `npm view` resolutions globally
across the outer attempts. -/

/-- Instrumented outcome of `install_mcp_server`: Python result
(`none` = `None`), outer attempts executed, outer-loop sleeps (the
compliance check's own sleeps are not counted here), final state. -/
structure IRun where
  result : Option Bool
  attempts : Nat
  sleeps : Nat
  st : St

/-- One iteration of the outer loop: `.error ()` means an exception
escaped the body (only `load_config` on a malformed file or the
registry-entry assignment can raise; every other failure `return`s
`False`). Also yields the number of compliance attempts consumed. -/
def installAttempt (w : Sys) (name : String) (args : Option (List String))
    (env : Option (List (String × String))) (cbase : Nat) (st : St) :
    Except Unit Bool × St × Nat :=
  let (es, st1) := check_environment w st
  if !(es.node && es.npm) then (.ok false, st1, 0)
  else
    let c := complianceGo (npmAtt w.npmView) cbase 3
    if c.result = some true then
      match load_config st1 with
      | (.error _, st2) => (.error (), st2, c.used)
      | (.ok doc, st2) =>
        let cmd := if es.npm then "npx" else "uvx"
        let fullArgs := ["-y", name] ++ args.getD []
        let sc := mkServerConfig cmd fullArgs env
        match setServer doc name sc with
        | .error _ => (.error (), st2, c.used)
        | .ok doc2 =>
          let st3 := save_config doc2 st2
          let st4 := emitSmithery w name cmd fullArgs env st3
          (.ok true, st4, c.used)
    else (.ok false, st1, c.used)

/-- The outer retry loop with `remaining` iterations left. -/
def installGo (w : Sys) (name : String) (args : Option (List String))
    (env : Option (List (String × String))) : Nat → Nat → St → IRun
  | 0, _, st => ⟨none, 0, 0, st⟩
  | r + 1, cbase, st =>
    match installAttempt w name args env cbase st with
    | (.ok b, st1, _) => ⟨some b, 1, 0, st1⟩
    | (.error _, st1, used) =>
      if r = 0 then ⟨some false, 1, 0, st1⟩
      else
        let out := installGo w name args env r (cbase + used) st1
        ⟨out.result, out.attempts + 1, out.sleeps + 1, out.st⟩

/-- `install_mcp_server` (Python default `max_retries=3`). -/
def install_mcp_server (w : Sys) (name : String) (args : Option (List String))
    (env : Option (List (String × String))) (max_retries : Nat) (st : St) : IRun :=
  installGo w name args env max_retries 0 st

/-! ## `install_local_mcp_server` (lines 216-273)

No retry loop around the body: a single `try/except` converts any
raised exception into `False`. -/

/-- `os.path.basename`: the part after the last `/`. -/
def basename (p : String) : String :=
  ((p.splitOn "/").getLast?).getD p

/-- The string form `json.dump` gives a scalar dict key (Python allows
non-string keys in memory and coerces them when serializing; an
unhashable key would raise at the assignment). The coercion is applied
here, at name-extraction time, rather than at serialization time. -/
def jsonKeyToString : Json → Except Unit String
  | .str s => .ok s
  | .num n => .ok (toString n)
  | .bool true => .ok "true"
  | .bool false => .ok "false"
  | .null => .ok "null"
  | _ => .error ()

/-- `install_local_mcp_server`: path check, compliance on the local
manifest (its own default `max_retries=3`), load, name from the
manifest's `name` falling back to the path's basename, fixed command
`node` with `<path>/index.js` prepended to the args, persist, emit. -/
def install_local_mcp_server (w : Sys) (path : String) (args : Option (List String))
    (env : Option (List (String × String))) (st : St) : Bool × St :=
  if !w.pathExists then (false, st)
  else
    let c := complianceGo (localAtt w.localManifest) 0 3
    if c.result = some true then
      match load_config st with
      | (.error _, st1) => (false, st1)
      | (.ok doc, st1) =>
        match w.localManifest with
        | .error _ => (false, st1)
        | .ok pinfo =>
          match pyGetD pinfo "name" (.str (basename path)) with
          | .error _ => (false, st1)
          | .ok nameJ =>
            match jsonKeyToString nameJ with
            | .error _ => (false, st1)
            | .ok nm =>
              let fullArgs := (path ++ "/index.js") :: args.getD []
              let sc := mkServerConfig "node" fullArgs env
              match setServer doc nm sc with
              | .error _ => (false, st1)
              | .ok doc2 =>
                let st2 := save_config doc2 st1
                let st3 := emitSmithery w nm "node" fullArgs env st2
                (true, st3)
    else (false, st)

/-! ## The CLI dispatch for the `smithery` subcommand (`main`)

`add_subparsers(dest="command")` stores the chosen subcommand under
`args.command`; but the `smithery` subparser's own `--command` option
has the same destination, and (since Python 3.7) the subparser parses
into a fresh namespace whose attributes are then copied over the outer
one. So after parsing `smithery <name> ...`, `args.command` holds the
`--command` value — `"npx"` by default — and never `"smithery"`.
`main`'s dispatch chain compares `args.command` against the five
subcommand names and falls through to `parser.print_help();
sys.exit(1)` otherwise. -/

/-- What `main` does after parsing a `smithery <name> ...` invocation. -/
inductive SmitheryDispatch where
  /-- `generate_smithery_yaml` was invoked; its exit code and artifact. -/
  | emitted (exitCode : Nat) (artifact : Option SmitheryConf)
  /-- fell through to `parser.print_help(); sys.exit(1)`; the emitter
  was never invoked. -/
  | helpExit
  /-- dispatched into another subcommand's branch (only possible when
  `--command` is given one of the other subcommand names). -/
  | otherBranch (key : String)
  deriving Repr, BEq

/-- `main` on argv `["smithery", name] ++ flags`: argparse leaves
`args.command = commandOpt.getD "npx"` (the `--command` value, default
`"npx"`), `args.name = name`, `args.args = argsOpt`,
`args.env = envTokens`; then `env_dict` is built and the dispatch chain
runs. -/
def main_smithery (writeOk : Bool) (name : String) (commandOpt : Option String)
    (argsOpt : Option (List String)) (envTokens : Option (List String)) :
    SmitheryDispatch :=
  let cmdAttr := commandOpt.getD "npx"
  let env_dict := (build_env_dict (envTokens.getD [])).1
  if cmdAttr = "install" || cmdAttr = "local" || cmdAttr = "url" || cmdAttr = "supabase" then
    .otherBranch cmdAttr
  else if cmdAttr = "smithery" then
    let (success, sm) := generate_smithery_yaml writeOk name cmdAttr argsOpt (some env_dict)
    .emitted (if success then 0 else 1) sm
  else
    .helpExit

/-! ## Derived views and spec-side predicates -/

/-- The server entry stored under `k` in the registry persisted in a
config file, if any: the file must hold a parsed document that is a
dict whose `mcpServers` value is a dict. -/
def regLookup (cfg : Option (Except Unit Json)) (k : String) : Option Json :=
  match cfg with
  | some (.ok (.obj kvs)) =>
    match alookup "mcpServers" kvs with
    | some (.obj servers) => alookup k servers
    | _ => none
  | _ => none

/-- A well-formed registry document per the spec: a JSON object with
the top-level key `mcpServers` mapping to an object. -/
def wellFormedRegistry : Json → Bool
  | .obj kvs =>
    match alookup "mcpServers" kvs with
    | some (.obj _) => true
    | _ => false
  | _ => false

/-- Modelled from the spec: marker 1, "some key of the manifest's
dependencies map starts with the vendor namespace prefix". -/
def specDepsMarker (j : Json) : Bool :=
  match j with
  | .obj kvs =>
    match alookup "dependencies" kvs with
    | some (.obj deps) => deps.any fun kv => strStartsWith kv.1 "@modelcontextprotocol/"
    | _ => false
  | _ => false

/-- Modelled from the spec: marker 2, "the stringified manifest
contains the substring modelcontextprotocol". -/
def specSchemaMarker (j : Json) : Bool :=
  strContains (pyRepr j) "modelcontextprotocol"

/-- Modelled from the spec: marker 3, "the manifest has a
`capabilities` object containing a `tools` key". -/
def specCapsMarker (j : Json) : Bool :=
  match j with
  | .obj kvs =>
    match alookup "capabilities" kvs with
    | some (.obj caps) => caps.any fun kv => kv.1 = "tools"
    | _ => false
  | _ => false

/-- Marker 3 as the code actually tests it: the `capabilities` value
contains `"tools"` under Python membership — a key when it is a dict,
an element when a list, a substring when a string. (On scalar
`capabilities` the code raises instead; that case never reaches a
returned boolean.) -/
def codeCapsMarker (j : Json) : Bool :=
  match j with
  | .obj kvs =>
    match alookup "capabilities" kvs with
    | some c =>
      match pyIn "tools" c with
      | .ok b => b
      | .error _ => false
    | none => false
  | _ => false

/-! ## Shared concrete instances -/

/-- A compliant manifest (marker 1 holds). -/
def exManifest : Json :=
  .obj [("dependencies", .obj [("@modelcontextprotocol/sdk", .str "1.0")])]

/-- A manifest whose `capabilities` value is the string `"tools"`:
none of the spec's three markers holds, yet Python's `"tools" in
"tools"` substring test succeeds. -/
def capsStringManifest : Json :=
  .obj [("capabilities", .str "tools")]

/-- A fully cooperative world: all probes succeed, every manifest
resolution yields the compliant manifest, the path exists, writes
succeed. -/
def exSys : Sys :=
  ⟨true, true, true, fun _ => .ok exManifest, .ok exManifest, true, true⟩

/-- Fresh state: no config file yet, nothing written, zero counters. -/
def st0 : St := ⟨none, none, 0, 0, 0⟩

/-- State whose config file exists but is not valid JSON. -/
def stMalformed : St := ⟨some (.error ()), none, 0, 0, 0⟩

/-! ## Helper lemmas -/

theorem alookup_aset_self {β : Type} (k : String) (v : β) (l : List (String × β)) :
    alookup k (aset k v l) = some v := by
  induction l with
  | nil => simp [aset, alookup]
  | cons kv rest ih =>
    by_cases h : kv.1 = k
    · simp [aset, alookup, h]
    · simp [aset, alookup, h, ih]

theorem alookup_aset_ne {β : Type} {k' k : String} (h : k' ≠ k) (v : β)
    (l : List (String × β)) : alookup k (aset k' v l) = alookup k l := by
  induction l with
  | nil => simp [aset, alookup, h]
  | cons kv rest ih =>
    by_cases h2 : kv.1 = k'
    · simp [aset, alookup, h2, h]
    · by_cases h3 : kv.1 = k <;> simp [aset, alookup, h2, h3, ih, Ne.symm h]

theorem alookup_isSome_any {β : Type} (k : String) (l : List (String × β)) :
    (l.any fun kv => kv.1 = k) = (alookup k l).isSome := by
  induction l with
  | nil => simp [alookup]
  | cons kv rest ih =>
    by_cases h : kv.1 = k <;> simp [alookup, h, ih]

/-- One-step unfolding of the compliance retry loop. -/
theorem complianceGo_succ (att : Nat → Except Unit Bool) (idx r : Nat) :
    complianceGo att idx (r + 1) =
      match att idx with
      | .ok b => ⟨some b, 1, 0⟩
      | .error _ =>
        if r = 0 then ⟨some false, 1, 0⟩
        else
          let out := complianceGo att (idx + 1) r
          ⟨out.result, out.used + 1, out.sleeps + 1⟩ := rfl

/-- One-step unfolding of the outer install retry loop. -/
theorem installGo_succ (w : Sys) (name : String) (args : Option (List String))
    (env : Option (List (String × String))) (r cbase : Nat) (st : St) :
    installGo w name args env (r + 1) cbase st =
      match installAttempt w name args env cbase st with
      | (.ok b, st1, _) => ⟨some b, 1, 0, st1⟩
      | (.error _, st1, used) =>
        if r = 0 then ⟨some false, 1, 0, st1⟩
        else
          let out := installGo w name args env r (cbase + used) st1
          ⟨out.result, out.attempts + 1, out.sleeps + 1, out.st⟩ := rfl

theorem any_map_fst {β : Type} (l : List (String × β)) (p : String → Bool) :
    (l.map Prod.fst).any p = l.any fun kv => p kv.1 := by
  induction l with
  | nil => rfl
  | cons kv rest ih => simp [ih]

theorem complianceGo_all_error (att : Nat → Except Unit Bool)
    (h : ∀ i, att i = .error ()) :
    ∀ r idx, complianceGo att idx (r + 1) = ⟨some false, r + 1, r⟩ := by
  intro r
  induction r with
  | zero => intro idx; rw [complianceGo_succ, h idx]; rfl
  | succ r ih =>
    intro idx
    rw [complianceGo_succ, h idx]
    simp only [Nat.succ_ne_zero, if_false, ih (idx + 1)]

theorem complianceGo_result_isSome (att : Nat → Except Unit Bool) :
    ∀ r idx, ((complianceGo att idx (r + 1)).result).isSome = true := by
  intro r
  induction r with
  | zero =>
    intro idx
    rw [complianceGo_succ]
    cases att idx <;> simp
  | succ r ih =>
    intro idx
    rw [complianceGo_succ]
    cases att idx <;> simp [ih (idx + 1)]

theorem installGo_result_isSome (w : Sys) (name : String)
    (args : Option (List String)) (env : Option (List (String × String))) :
    ∀ r cbase st, ((installGo w name args env (r + 1) cbase st).result).isSome = true := by
  intro r
  induction r with
  | zero =>
    intro cbase st
    rw [installGo_succ]
    rcases installAttempt w name args env cbase st with ⟨b | e, st1, used⟩ <;> simp
  | succ r ih =>
    intro cbase st
    rw [installGo_succ]
    rcases installAttempt w name args env cbase st with ⟨b | e, st1, used⟩ <;>
      simp [ih]

/-! ## Claim theorems -/

/-- C3: when resolving the manifest raises an exception on every
attempt, `is_mcp_compliant` makes exactly `max_retries` attempts with a
fixed 1-second sleep between consecutive attempts (`max_retries - 1`
sleeps) and then returns `False`; no exception reaches the caller (the
loop consumes every `Except.error`). -/
theorem compliance_exhausts_retries_returns_false (npmView : Nat → Except Unit Json)
    (mr : Nat) (hmr : 1 ≤ mr) (hfail : ∀ i, npmView i = .error ()) :
    is_mcp_compliant (npmAtt npmView) mr = ⟨some false, mr, mr - 1⟩ := by
  cases mr with
  | zero => exact absurd hmr (by omega)
  | succ r =>
    have hatt : ∀ i, npmAtt npmView i = .error () := by
      intro i
      rw [npmAtt, hfail i]
      rfl
    rw [is_mcp_compliant, complianceGo_all_error _ hatt r 0]
    rfl

theorem compliance_exhausts_retries_returns_false_witness :
    is_mcp_compliant (npmAtt fun _ => .error ()) 3 = ⟨some false, 3, 2⟩ :=
  compliance_exhausts_retries_returns_false (fun _ => .error ()) 3 (by omega)
    (fun _ => rfl)

/-- C5: the CLI never reaches the `smithery` dispatch branch. Parsing
`smithery <name> ...` leaves `args.command` equal to the `--command`
option value — `"npx"` when the flag is absent — because the subparser
option shares the destination `command` with the subcommand selector
and overwrites it. `main` therefore falls through every comparison to
`parser.print_help(); sys.exit(1)` and `generate_smithery_yaml` is
never invoked, contrary to the claim. -/
theorem smithery_subcommand_falls_through (writeOk : Bool) (name : String)
    (argsOpt : Option (List String)) (envTokens : Option (List String)) :
    main_smithery writeOk name none argsOpt envTokens = .helpExit := rfl

/-- C6: local-path install with a nonexistent path returns `False`
having touched nothing: the state (config file, artifact, load/save
counters) is returned unchanged, so the registry is neither loaded nor
saved. -/
theorem local_install_missing_path (w : Sys) (path : String)
    (args : Option (List String)) (env : Option (List (String × String)))
    (st : St) (h : w.pathExists = false) :
    install_local_mcp_server w path args env st = (false, st) := by
  simp [install_local_mcp_server, h]

theorem local_install_missing_path_witness :
    install_local_mcp_server
      ⟨true, true, true, fun _ => .ok exManifest, .ok exManifest, false, true⟩
      "/nope" none none st0 = (false, st0) :=
  local_install_missing_path _ _ _ _ _ rfl

/-- C8: saving a well-formed registry document and loading yields the
same document (`load(save(R)) = R`). -/
theorem config_save_load_roundtrip (R : Json) (st : St)
    (h : wellFormedRegistry R = true) :
    (load_config (save_config R st)).1 = .ok R := rfl

theorem config_save_load_roundtrip_witness :
    (load_config (save_config (Json.obj [("mcpServers", Json.obj [])]) st0)).1 =
      .ok (Json.obj [("mcpServers", Json.obj [])]) :=
  config_save_load_roundtrip (Json.obj [("mcpServers", Json.obj [])]) st0 rfl

/-- C10: with `max_retries = 0` the retry loops of `is_mcp_compliant`
and `install_mcp_server` never execute their body and both functions
return `None` (not `False`); with `max_retries ≥ 1` both always return
a boolean. -/
theorem retry_zero_returns_none :
    (∀ att, (is_mcp_compliant att 0).result = none) ∧
    (∀ w name args env st, (install_mcp_server w name args env 0 st).result = none) ∧
    (∀ att mr, 1 ≤ mr → ((is_mcp_compliant att mr).result).isSome = true) ∧
    (∀ w name args env mr st, 1 ≤ mr →
      ((install_mcp_server w name args env mr st).result).isSome = true) := by
  refine ⟨fun att => rfl, fun w n a e st => rfl, ?_, ?_⟩
  · intro att mr h
    cases mr with
    | zero => exact absurd h (by omega)
    | succ r => exact complianceGo_result_isSome att r 0
  · intro w n a e mr st h
    cases mr with
    | zero => exact absurd h (by omega)
    | succ r => exact installGo_result_isSome w n a e r 0 st

theorem retry_zero_returns_none_witness :
    ((is_mcp_compliant (npmAtt exSys.npmView) 3).result).isSome = true ∧
    ((install_mcp_server exSys "pkg" none none 3 st0).result).isSome = true :=
  ⟨retry_zero_returns_none.2.2.1 _ 3 (by omega),
   retry_zero_returns_none.2.2.2 exSys "pkg" none none 3 st0 (by omega)⟩

/-- C2 counterexample: the manifest `{"capabilities": "tools"}` makes
the compliance check return `True` — Python's `"tools" in "tools"` is a
substring test — although none of the claim's three markers holds: no
dependency key, no `modelcontextprotocol` substring in the stringified
manifest, and `capabilities` is a string, not an object with a `tools`
key. -/
theorem mcpCheck_capabilities_string_counterexample :
    mcpCheck capsStringManifest = .ok true ∧
    (specDepsMarker capsStringManifest || specSchemaMarker capsStringManifest ||
      specCapsMarker capsStringManifest) = false :=
  ⟨rfl, rfl⟩

/-- C2 amended: whenever the compliance predicate completes without an
exception, its boolean is the disjunction of the dependency-prefix
marker, the stringified-manifest substring marker, and the
`capabilities`-value membership marker under Python `in` semantics (key
of a dict, element of a list, substring of a string). -/
theorem mcpCheck_membership_markers (j : Json) (b : Bool)
    (h : mcpCheck j = .ok b) :
    b = (specDepsMarker j || specSchemaMarker j || codeCapsMarker j) := by
  cases j with
  | obj kvs =>
    rcases hd : alookup "dependencies" kvs with _ | c
    · rcases hc : alookup "capabilities" kvs with _ | c2
      · simp [mcpCheck, pyGetD, pyKeys, pyIn, bind, Except.bind, pure,
          Except.pure, Option.getD, hd, hc, alookup_isSome_any] at h
        subst h
        simp [specDepsMarker, specSchemaMarker, codeCapsMarker, hd, hc]
      · cases c2 <;>
          simp [mcpCheck, pyGetD, pyKeys, pyIn, bind, Except.bind, pure,
            Except.pure, Option.getD, hd, hc, alookup_isSome_any] at h <;>
          subst h <;>
          simp [specDepsMarker, specSchemaMarker, codeCapsMarker, pyIn, hd, hc,
            alookup_isSome_any]
    · cases c with
      | obj deps =>
        rcases hc : alookup "capabilities" kvs with _ | c2
        · simp [mcpCheck, pyGetD, pyKeys, pyIn, bind, Except.bind, pure,
            Except.pure, Option.getD, hd, hc, alookup_isSome_any] at h
          subst h
          simp [specDepsMarker, specSchemaMarker, codeCapsMarker, hd, hc,
            any_map_fst]
        · cases c2 <;>
            simp [mcpCheck, pyGetD, pyKeys, pyIn, bind, Except.bind, pure,
              Except.pure, Option.getD, hd, hc, alookup_isSome_any] at h <;>
            subst h <;>
            simp [specDepsMarker, specSchemaMarker, codeCapsMarker, pyIn, hd,
              hc, alookup_isSome_any, any_map_fst]
      | null =>
        simp [mcpCheck, pyGetD, pyKeys, bind, Except.bind, Option.getD, hd] at h
      | bool x =>
        simp [mcpCheck, pyGetD, pyKeys, bind, Except.bind, Option.getD, hd] at h
      | num x =>
        simp [mcpCheck, pyGetD, pyKeys, bind, Except.bind, Option.getD, hd] at h
      | str x =>
        simp [mcpCheck, pyGetD, pyKeys, bind, Except.bind, Option.getD, hd] at h
      | arr x =>
        simp [mcpCheck, pyGetD, pyKeys, bind, Except.bind, Option.getD, hd] at h
  | null => exact nomatch h
  | bool x => exact nomatch h
  | num x => exact nomatch h
  | str x => exact nomatch h
  | arr x => exact nomatch h

set_option maxRecDepth 4000 in
theorem mcpCheck_membership_markers_witness :
    true = (specDepsMarker exManifest || specSchemaMarker exManifest ||
      codeCapsMarker exManifest) :=
  mcpCheck_membership_markers exManifest true rfl

theorem envStep_foldl_lookup (tokens : List String) :
    ∀ (acc : List (String × String)) (warns : Nat) (k : String),
      alookup k (List.foldl envStep (acc, warns) tokens).1 =
        match (tokens.filterMap parseEnvTok).reverse.find? (fun p => p.1 = k) with
        | some p => some p.2
        | none => alookup k acc := by
  induction tokens with
  | nil => intro acc warns k; rfl
  | cons tok rest ih =>
    intro acc warns k
    rcases hp : parseEnvTok tok with _ | kv
    · simp only [List.foldl_cons, envStep, hp, List.filterMap_cons_none hp]
      exact ih acc (warns + 1) k
    · simp only [List.foldl_cons, envStep, hp, List.filterMap_cons_some hp,
        List.reverse_cons, List.find?_append]
      rw [ih (aset kv.1 kv.2 acc) warns k]
      rcases hf : (rest.filterMap parseEnvTok).reverse.find? (fun p => p.1 = k) with _ | p
      · by_cases hkk : kv.1 = k
        · subst hkk
          simp [hf, alookup_aset_self]
        · simp [hf, hkk, alookup_aset_ne hkk]
      · simp [hf]

theorem envStep_foldl_warns (tokens : List String) :
    ∀ (acc : List (String × String)) (warns : Nat),
      (List.foldl envStep (acc, warns) tokens).2 =
        warns + (tokens.filter fun t => (parseEnvTok t).isNone).length := by
  induction tokens with
  | nil => intro acc warns; rfl
  | cons tok rest ih =>
    intro acc warns
    rcases hp : parseEnvTok tok with _ | kv <;>
      simp only [List.foldl_cons, envStep, hp, List.filter_cons] <;>
      simp [hp, ih] <;> omega

/-- C7: the env map is built left to right from the `KEY=VALUE` tokens;
a duplicate key ends with the value of its last token (last write
wins), a token without `=` is dropped and counted as a warning, never
an error; in particular `["A=1", "B=2", "bad", "A=3"]` yields
`{A: "3", B: "2"}` with one warning. -/
theorem env_tokens_last_write_wins :
    (build_env_dict ["A=1", "B=2", "bad", "A=3"] = ([("A", "3"), ("B", "2")], 1)) ∧
    (∀ tokens k,
      alookup k (build_env_dict tokens).1 =
        match (tokens.filterMap parseEnvTok).reverse.find? (fun p => p.1 = k) with
        | some p => some p.2
        | none => none) ∧
    (∀ tokens, (build_env_dict tokens).2 =
      (tokens.filter fun t => (parseEnvTok t).isNone).length) := by
  refine ⟨rfl, ?_, ?_⟩
  · intro tokens k
    rw [build_env_dict, envStep_foldl_lookup tokens [] 0 k]
    rcases (tokens.filterMap parseEnvTok).reverse.find? (fun p => p.1 = k) with _ | p <;> rfl
  · intro tokens
    rw [build_env_dict, envStep_foldl_warns tokens [] 0]
    omega

theorem emitSmithery_config (w : Sys) (n c : String) (a : List String)
    (e : Option (List (String × String))) (st : St) :
    (emitSmithery w n c a e st).config = st.config := by
  rw [emitSmithery]
  split <;> rfl

theorem load_config_bump (st : St) (kvs : List (String × Json))
    (hload : (load_config st).1 = .ok (.obj kvs)) :
    load_config { st with envChecks := st.envChecks + 1 } =
      (.ok (.obj kvs),
       { st with envChecks := st.envChecks + 1, loads := st.loads + 1 }) := by
  rcases hsc : st.config with _ | r
  · simp only [load_config, hsc] at hload
    cases hload
    simp [load_config, hsc]
  · simp only [load_config, hsc] at hload
    subst hload
    simp [load_config, hsc]

theorem installAttempt_ok (w : Sys) (name : String) (args : Option (List String))
    (env : Option (List (String × String))) (cbase : Nat) (st : St)
    (kvs servers : List (String × Json))
    (hnode : w.node = true) (hnpm : w.npm = true)
    (hcomp : (complianceGo (npmAtt w.npmView) cbase 3).result = some true)
    (hload : (load_config st).1 = .ok (.obj kvs))
    (hms : alookup "mcpServers" kvs = some (.obj servers)) :
    (installAttempt w name args env cbase st).1 = .ok true ∧
    (installAttempt w name args env cbase st).2.1.config =
      some (.ok (.obj (aset "mcpServers"
        (.obj (aset name (mkServerConfig "npx" (["-y", name] ++ args.getD []) env)
          servers)) kvs))) := by
  rw [installAttempt, check_environment]
  simp only [hnode, hnpm, Bool.and_self, Bool.not_true, Bool.false_eq_true,
    if_false, hcomp, if_true]
  rw [load_config_bump st kvs hload]
  simp only [setServer, hms]
  constructor
  · trivial
  · rw [emitSmithery_config]
    rfl

theorem emitSmithery_counters (w : Sys) (n c : String) (a : List String)
    (e : Option (List (String × String))) (st : St) :
    (emitSmithery w n c a e st).loads = st.loads ∧
    (emitSmithery w n c a e st).saves = st.saves ∧
    (emitSmithery w n c a e st).envChecks = st.envChecks := by
  rw [emitSmithery]
  split <;> exact ⟨rfl, rfl, rfl⟩

theorem installAttempt_loadError (w : Sys) (name : String)
    (args : Option (List String)) (env : Option (List (String × String)))
    (cbase : Nat) (st : St) (hgu : (w.node && w.npm) = true)
    (hcomp : (complianceGo (npmAtt w.npmView) cbase 3).result = some true)
    (hbad : st.config = some (.error ())) :
    installAttempt w name args env cbase st =
      (.error (), { st with envChecks := st.envChecks + 1, loads := st.loads + 1 },
        (complianceGo (npmAtt w.npmView) cbase 3).used) := by
  rw [installAttempt, check_environment]
  simp only [hgu, Bool.not_true, Bool.false_eq_true, if_false, hcomp, if_true]
  simp only [load_config, hbad]

theorem installGo_malformed (w : Sys) (name : String)
    (args : Option (List String)) (env : Option (List (String × String)))
    (hgu : (w.node && w.npm) = true)
    (hcomp : ∀ cbase, (complianceGo (npmAtt w.npmView) cbase 3).result = some true) :
    ∀ r cbase st, st.config = some (.error ()) →
      (installGo w name args env (r + 1) cbase st).result = some false ∧
      (installGo w name args env (r + 1) cbase st).attempts = r + 1 ∧
      (installGo w name args env (r + 1) cbase st).sleeps = r ∧
      (installGo w name args env (r + 1) cbase st).st.config = st.config := by
  intro r
  induction r with
  | zero =>
    intro cbase st hbad
    rw [installGo_succ,
      installAttempt_loadError w name args env cbase st hgu (hcomp cbase) hbad]
    exact ⟨rfl, rfl, rfl, rfl⟩
  | succ r ih =>
    intro cbase st hbad
    rw [installGo_succ,
      installAttempt_loadError w name args env cbase st hgu (hcomp cbase) hbad]
    have h2 := ih (cbase + (complianceGo (npmAtt w.npmView) cbase 3).used)
      { st with envChecks := st.envChecks + 1, loads := st.loads + 1 } hbad
    rw [hbad] at h2
    refine ⟨?_, ?_, ?_, ?_⟩ <;>
      simp only [Nat.succ_ne_zero, if_false, hbad] <;>
      simp [h2.1, h2.2.1, h2.2.2.1, h2.2.2.2]

/-- C1: when node and npm probes succeed and the compliance check
answers true, registry-package install returns `True` and the persisted
registry maps the package name to
`{command: "npx", args: ["-y", name] ++ extraArgs, type: "stdio"}`,
with an `env` key exactly when an env map is supplied (a supplied empty
map is Python-falsy and, like `None`, adds no `env` key). The config
file is assumed loadable as a well-formed registry document, as in the
spec's end-to-end scenario. -/
theorem install_registry_package_success (w : Sys) (name : String)
    (args : Option (List String)) (env : Option (List (String × String)))
    (mr : Nat) (st : St) (hmr : 1 ≤ mr)
    (hnode : w.node = true) (hnpm : w.npm = true)
    (hcomp : (complianceGo (npmAtt w.npmView) 0 3).result = some true)
    (hcfg : ∃ kvs servers, (load_config st).1 = .ok (.obj kvs) ∧
      alookup "mcpServers" kvs = some (.obj servers)) :
    (install_mcp_server w name args env mr st).result = some true ∧
    regLookup (install_mcp_server w name args env mr st).st.config name =
      some (.obj ([("command", Json.str "npx"),
        ("args", Json.arr ((["-y", name] ++ args.getD []).map Json.str)),
        ("type", Json.str "stdio")] ++
        (match env with
         | some e =>
           if e.isEmpty then []
           else [("env", Json.obj (e.map fun kv => (kv.1, Json.str kv.2)))]
         | none => []))) := by
  obtain ⟨kvs, servers, hload, hms⟩ := hcfg
  cases mr with
  | zero => exact absurd hmr (by omega)
  | succ r =>
    obtain ⟨h1, h2⟩ :=
      installAttempt_ok w name args env 0 st kvs servers hnode hnpm hcomp hload hms
    rw [install_mcp_server, installGo_succ]
    rcases hA : installAttempt w name args env 0 st with ⟨res, st2, used⟩
    rw [hA] at h1 h2
    simp only at h1 h2
    subst h1
    refine ⟨rfl, ?_⟩
    show regLookup st2.config name = _
    rw [h2]
    simp only [regLookup, alookup_aset_self]
    rcases env with _ | e
    · simp [mkServerConfig]
    · by_cases he : e.isEmpty <;> simp [mkServerConfig, he]

set_option maxRecDepth 20000 in
theorem install_registry_package_success_witness :
    (install_mcp_server exSys "example-pkg" (some ["--verbose"])
      (some [("X", "1")]) 3 st0).result = some true ∧
    regLookup (install_mcp_server exSys "example-pkg" (some ["--verbose"])
      (some [("X", "1")]) 3 st0).st.config "example-pkg" =
      some (.obj [("command", Json.str "npx"),
        ("args", Json.arr [Json.str "-y", Json.str "example-pkg", Json.str "--verbose"]),
        ("type", Json.str "stdio"),
        ("env", Json.obj [("X", Json.str "1")])]) :=
  install_registry_package_success exSys "example-pkg" (some ["--verbose"])
    (some [("X", "1")]) 3 st0 (by omega) rfl rfl (by rfl)
    ⟨[("mcpServers", Json.obj [])], [], rfl, rfl⟩

set_option maxRecDepth 40000 in
/-- C4 counterexample: with both probes succeeding and a compliant
package but a malformed config file, `install_mcp_server` executes its
whole body — environment probe and compliance check included — three
times (its `max_retries`), sleeping between iterations, before
returning `False`: the install operation is retried as a whole, not
executed at most once. -/
theorem install_whole_body_retried_counterexample :
    (install_mcp_server exSys "pkg" none none 3 stMalformed).attempts = 3 ∧
    (install_mcp_server exSys "pkg" none none 3 stMalformed).st.envChecks = 3 ∧
    (install_mcp_server exSys "pkg" none none 3 stMalformed).st.loads = 3 ∧
    (install_mcp_server exSys "pkg" none none 3 stMalformed).sleeps = 2 ∧
    (install_mcp_server exSys "pkg" none none 3 stMalformed).result = some false := by
  refine ⟨?_, ?_, ?_, ?_, ?_⟩ <;> rfl

theorem emitSmithery_loads (w : Sys) (n c : String) (a : List String)
    (e : Option (List (String × String))) (st : St) :
    (emitSmithery w n c a e st).loads = st.loads := by
  rw [emitSmithery]
  split <;> rfl

theorem emitSmithery_saves (w : Sys) (n c : String) (a : List String)
    (e : Option (List (String × String))) (st : St) :
    (emitSmithery w n c a e st).saves = st.saves := by
  rw [emitSmithery]
  split <;> rfl

theorem emitSmithery_envChecks (w : Sys) (n c : String) (a : List String)
    (e : Option (List (String × String))) (st : St) :
    (emitSmithery w n c a e st).envChecks = st.envChecks := by
  rw [emitSmithery]
  split <;> rfl

theorem load_config_snd (st : St) :
    (load_config st).2 = { st with loads := st.loads + 1 } := by
  rcases hsc : st.config with _ | r <;> simp [load_config, hsc]

/-- C4 amended: only the compliance check and the registry-package
install's own outer loop retry internally; the local-path install
executes its body at most once (at most one registry load and one
save, no environment probe). For the registry-package install: a step
that fails by returning false (environment probe, compliance check)
aborts on the first attempt with result `False` and no retry, while a
step that raises an exception (e.g. the config file failing to load)
retries the whole body up to `max_retries` times with 1-second delays
and then returns `False`, leaving the config file unchanged — so no
saved entry is ever rolled back. -/
theorem install_retry_structure :
    (∀ (w : Sys) (name : String) (args : Option (List String))
        (env : Option (List (String × String))) (mr : Nat) (st : St),
      1 ≤ mr → (w.node && w.npm) = false →
      install_mcp_server w name args env mr st =
        ⟨some false, 1, 0, { st with envChecks := st.envChecks + 1 }⟩) ∧
    (∀ (w : Sys) (name : String) (args : Option (List String))
        (env : Option (List (String × String))) (mr : Nat) (st : St),
      1 ≤ mr → (w.node && w.npm) = true →
      (complianceGo (npmAtt w.npmView) 0 3).result = some false →
      (install_mcp_server w name args env mr st).result = some false ∧
      (install_mcp_server w name args env mr st).attempts = 1 ∧
      (install_mcp_server w name args env mr st).sleeps = 0) ∧
    (∀ (w : Sys) (name : String) (args : Option (List String))
        (env : Option (List (String × String))) (mr : Nat) (st : St),
      1 ≤ mr → (w.node && w.npm) = true →
      (∀ cbase, (complianceGo (npmAtt w.npmView) cbase 3).result = some true) →
      st.config = some (.error ()) →
      (install_mcp_server w name args env mr st).result = some false ∧
      (install_mcp_server w name args env mr st).attempts = mr ∧
      (install_mcp_server w name args env mr st).sleeps = mr - 1 ∧
      (install_mcp_server w name args env mr st).st.config = st.config) ∧
    (∀ (w : Sys) (path : String) (args : Option (List String))
        (env : Option (List (String × String))) (st : St),
      (install_local_mcp_server w path args env st).2.loads ≤ st.loads + 1 ∧
      (install_local_mcp_server w path args env st).2.saves ≤ st.saves + 1 ∧
      (install_local_mcp_server w path args env st).2.envChecks = st.envChecks) := by
  refine ⟨?_, ?_, ?_, ?_⟩
  · intro w name args env mr st hmr hgu
    cases mr with
    | zero => exact absurd hmr (by omega)
    | succ r =>
      have hA : installAttempt w name args env 0 st =
          (.ok false, { st with envChecks := st.envChecks + 1 }, 0) := by
        rw [installAttempt, check_environment]
        simp only [hgu, Bool.not_false, if_true]
      rw [install_mcp_server, installGo_succ, hA]
  · intro w name args env mr st hmr hgu hcomp
    cases mr with
    | zero => exact absurd hmr (by omega)
    | succ r =>
      have hA : installAttempt w name args env 0 st =
          (.ok false, { st with envChecks := st.envChecks + 1 },
            (complianceGo (npmAtt w.npmView) 0 3).used) := by
        rw [installAttempt, check_environment]
        simp only [hgu, Bool.not_true, Bool.false_eq_true, if_false, hcomp]
        simp
      rw [install_mcp_server, installGo_succ, hA]
      exact ⟨rfl, rfl, rfl⟩
  · intro w name args env mr st hmr hgu hcomp hbad
    cases mr with
    | zero => exact absurd hmr (by omega)
    | succ r =>
      have h2 := installGo_malformed w name args env hgu hcomp r 0 st hbad
      exact ⟨h2.1, h2.2.1, by rw [install_mcp_server, h2.2.2.1]; omega, h2.2.2.2⟩
  · intro w path args env st
    have hsnd := load_config_snd st
    rcases hL : load_config st with ⟨res, st1⟩
    have h1 : st1 = { st with loads := st.loads + 1 } := by
      rw [← hsnd, hL]
    subst h1
    rw [install_local_mcp_server, hL]
    cases hpe : w.pathExists with
    | false => exact ⟨Nat.le_succ _, Nat.le_succ _, rfl⟩
    | true =>
      simp only [Bool.not_true, Bool.false_eq_true, if_false]
      by_cases hc : (complianceGo (localAtt w.localManifest) 0 3).result = some true
      · rw [if_pos hc]
        rcases res with e | doc
        · exact ⟨Nat.le_refl _, Nat.le_succ _, by trivial⟩
        · rcases hM : w.localManifest with e | pinfo <;> simp only [hM]
          · exact ⟨Nat.le_refl _, Nat.le_succ _, by trivial⟩
          · rcases hG : pyGetD pinfo "name" (.str (basename path)) with e | nameJ <;>
              simp only [hG]
            · exact ⟨Nat.le_refl _, Nat.le_succ _, by trivial⟩
            · rcases hK : jsonKeyToString nameJ with e | nm <;> simp only [hK]
              · exact ⟨Nat.le_refl _, Nat.le_succ _, by trivial⟩
              · rcases hS : setServer doc nm (mkServerConfig "node"
                    ((path ++ "/index.js") :: args.getD []) env) with e | doc2 <;>
                  simp only [hS]
                · exact ⟨Nat.le_refl _, Nat.le_succ _, by trivial⟩
                · simp [save_config, emitSmithery_loads, emitSmithery_saves,
                    emitSmithery_envChecks]
      · rw [if_neg hc]
        exact ⟨Nat.le_succ _, Nat.le_succ _, rfl⟩

set_option maxRecDepth 40000 in
theorem install_retry_structure_witness :
    (install_mcp_server exSys "pkg2" none none 3 stMalformed).attempts = 3 ∧
    (install_mcp_server exSys "pkg2" none none 3 stMalformed).st.config =
      stMalformed.config :=
  ⟨(install_retry_structure.2.2.1 exSys "pkg2" none none 3 stMalformed (by omega)
      rfl (fun _ => rfl) rfl).2.1,
   (install_retry_structure.2.2.1 exSys "pkg2" none none 3 stMalformed (by omega)
      rfl (fun _ => rfl) rfl).2.2.2⟩

theorem setServer_ok_frame (doc : Json) (nm : String) (sc : Json) (doc2 : Json)
    (h : setServer doc nm sc = .ok doc2) (k : String) (hk : k ≠ nm) :
    regLookup (some (.ok doc2)) k = regLookup (some (.ok doc)) k := by
  rcases doc with _ | b | n | s | xs | kvs
  case null => exact nomatch h
  case bool => exact nomatch h
  case num => exact nomatch h
  case str => exact nomatch h
  case arr => exact nomatch h
  case obj =>
    simp only [setServer] at h
    rcases hms : alookup "mcpServers" kvs with _ | v <;> rw [hms] at h
    · exact nomatch h
    · rcases v with _ | b | n | s | xs2 | servers
      case null => exact nomatch h
      case bool => exact nomatch h
      case num => exact nomatch h
      case str => exact nomatch h
      case arr => exact nomatch h
      case obj =>
        cases h
        simp [regLookup, alookup_aset_self, hms, alookup_aset_ne (Ne.symm hk)]

theorem installAttempt_frame (w : Sys) (name : String)
    (args : Option (List String)) (env : Option (List (String × String)))
    (cbase : Nat) (st : St) (k : String) (hk : k ≠ name) :
    regLookup (installAttempt w name args env cbase st).2.1.config k =
      regLookup st.config k := by
  simp only [installAttempt, check_environment]
  by_cases hgu : (!(w.node && w.npm)) = true
  · rw [if_pos hgu]
  · rw [if_neg hgu]
    by_cases hc : (complianceGo (npmAtt w.npmView) cbase 3).result = some true
    · rw [if_pos hc]
      rcases hsc : st.config with _ | r
      · have hl : load_config
              { st with
                  config := none
                  envChecks := st.envChecks + 1 } =
            (.ok (.obj [("mcpServers", .obj [])]),
             { st with
                 config := none
                 loads := st.loads + 1
                 envChecks := st.envChecks + 1 }) := by
          simp [load_config]
        rw [hl]
        simp [setServer, alookup, aset, save_config, emitSmithery_config,
          regLookup, Ne.symm hk]
      · rcases r with e | doc
        · have hl : load_config
                { st with
                    config := some (.error e)
                    envChecks := st.envChecks + 1 } =
              (.error e,
               { st with
                   config := some (.error e)
                   loads := st.loads + 1
                   envChecks := st.envChecks + 1 }) := by
            simp [load_config]
          rw [hl]
        · have hl : load_config
                { st with
                    config := some (.ok doc)
                    envChecks := st.envChecks + 1 } =
              (.ok doc,
               { st with
                   config := some (.ok doc)
                   loads := st.loads + 1
                   envChecks := st.envChecks + 1 }) := by
            simp [load_config]
          simp only [hl]
          rcases hS : setServer doc name
              (mkServerConfig (if w.npm then "npx" else "uvx")
                (["-y", name] ++ args.getD []) env) with e | doc2
          · rfl
          · have hfr := setServer_ok_frame doc name _ doc2 hS k hk
            simp only [save_config, emitSmithery_config]
            exact hfr
    · rw [if_neg hc]

theorem installGo_frame (w : Sys) (name : String) (args : Option (List String))
    (env : Option (List (String × String))) (k : String) (hk : k ≠ name) :
    ∀ r cbase st,
      regLookup (installGo w name args env r cbase st).st.config k =
        regLookup st.config k := by
  intro r
  induction r with
  | zero => intro cbase st; rfl
  | succ r ih =>
    intro cbase st
    rw [installGo_succ]
    have hA := installAttempt_frame w name args env cbase st k hk
    rcases hInst : installAttempt w name args env cbase st with ⟨res, st2, used⟩
    rw [hInst] at hA
    simp only at hA
    rcases res with e | b
    · cases r with
      | zero => exact hA
      | succ r2 => exact (ih (cbase + used) st2).trans hA
    · exact hA

/-- C9: an install of a server changes the persisted registry only at
the installed name: for the registry-package installer every other key
of the registry reads the same before and after; for the local-path
installer there is a name (the one derived from the manifest or the
path) outside of which the registry is unchanged. -/
theorem install_touches_only_installed_name :
    (∀ (w : Sys) (name : String) (args : Option (List String))
        (env : Option (List (String × String))) (mr : Nat) (st : St) (k : String),
      k ≠ name →
      regLookup (install_mcp_server w name args env mr st).st.config k =
        regLookup st.config k) ∧
    (∀ (w : Sys) (path : String) (args : Option (List String))
        (env : Option (List (String × String))) (st : St),
      ∃ nm, ∀ k, k ≠ nm →
        regLookup (install_local_mcp_server w path args env st).2.config k =
          regLookup st.config k) := by
  constructor
  · intro w name args env mr st k hk
    exact installGo_frame w name args env k hk mr 0 st
  · intro w path args env st
    rcases hL : load_config st with ⟨res, st1⟩
    have h1 : st1 = { st with loads := st.loads + 1 } := by
      rw [← load_config_snd st, hL]
    subst h1
    rw [install_local_mcp_server, hL]
    cases hpe : w.pathExists with
    | false => exact ⟨"", fun k _ => rfl⟩
    | true =>
      simp only [Bool.not_true, Bool.false_eq_true, if_false]
      by_cases hc : (complianceGo (localAtt w.localManifest) 0 3).result = some true
      · rw [if_pos hc]
        rcases res with e | doc
        · exact ⟨"", fun k _ => rfl⟩
        · rcases hM : w.localManifest with e | pinfo <;> simp only [hM]
          · exact ⟨"", fun k _ => by trivial⟩
          · rcases hG : pyGetD pinfo "name" (.str (basename path)) with e | nameJ <;>
              simp only [hG]
            · exact ⟨"", fun k _ => by trivial⟩
            · rcases hK : jsonKeyToString nameJ with e | nm <;> simp only [hK]
              · exact ⟨"", fun k _ => by trivial⟩
              · rcases hS : setServer doc nm
                    (mkServerConfig "node" ((path ++ "/index.js") :: args.getD [])
                      env) with e | doc2 <;> simp only [hS]
                · exact ⟨"", fun k _ => by trivial⟩
                · refine ⟨nm, fun k hk => ?_⟩
                  have hfr := setServer_ok_frame doc nm _ doc2 hS k hk
                  simp only [save_config, emitSmithery_config]
                  have hdoc : (load_config st).1 = .ok doc := by rw [hL]
                  rcases hsc : st.config with _ | r
                  · have hde : Except.ok (ε := Unit) doc =
                        .ok (Json.obj [("mcpServers", Json.obj [])]) := by
                      rw [← hdoc]
                      simp [load_config, hsc]
                    cases hde
                    rw [hfr]
                    simp [regLookup, alookup]
                  · rcases r with e2 | d
                    · exfalso
                      rw [load_config] at hdoc
                      rw [hsc] at hdoc
                      exact nomatch hdoc
                    · have hde : Except.ok (ε := Unit) doc = .ok d := by
                        rw [← hdoc]
                        simp [load_config, hsc]
                      cases hde
                      exact hfr
      · rw [if_neg hc]
        exact ⟨"", fun k _ => rfl⟩

set_option maxRecDepth 40000 in
theorem install_touches_only_installed_name_witness :
    regLookup (install_mcp_server exSys "newpkg" none none 3 st0).st.config
      "other" = regLookup st0.config "other" :=
  install_touches_only_installed_name.1 exSys "newpkg" none none 3 st0 "other"
    (by decide)

end McpInstaller
